import Mathlib

/-!
Verification model of the `chat` application's persistence layer
(`chat/models.py`): conversation/message lifecycle with denormalized
message counts and cache invalidation, daily statistics rollup, and
practice-lab completion tracking.  Machine integers are modelled as `Nat`
with explicit reduction modulo `2 ^ 32` where the hash algorithm wraps.
-/

namespace Hackversity

/-! ### SHA-256 (embedding of `hashlib.sha256(content.encode()).hexdigest()`) -/

/-- Reduce modulo the 32-bit word size. -/
def w32m (n : Nat) : Nat := n % 2 ^ 32

/-- Right rotation of a 32-bit word, expressed with division and remainder. -/
def rotr32 (n x : Nat) : Nat := w32m (x / 2 ^ n + x % 2 ^ n * 2 ^ (32 - n))

def bigSigma0 (x : Nat) : Nat := rotr32 2 x ^^^ rotr32 13 x ^^^ rotr32 22 x

def bigSigma1 (x : Nat) : Nat := rotr32 6 x ^^^ rotr32 11 x ^^^ rotr32 25 x

def smallSigma0 (x : Nat) : Nat := rotr32 7 x ^^^ rotr32 18 x ^^^ x / 2 ^ 3

def smallSigma1 (x : Nat) : Nat := rotr32 17 x ^^^ rotr32 19 x ^^^ x / 2 ^ 10

def chFn (e f g : Nat) : Nat := (e &&& f) ^^^ ((2 ^ 32 - 1 - e) &&& g)

def majFn (a b c : Nat) : Nat := (a &&& b) ^^^ (a &&& c) ^^^ (b &&& c)

/-- Bisection step for the integer cube root. -/
def icbrtAux : Nat → Nat → Nat → Nat → Nat
  | 0, lo, _, _ => lo
  | fuel + 1, lo, hi, n =>
      if hi ≤ lo + 1 then lo
      else
        let mid := (lo + hi) / 2
        if mid ^ 3 ≤ n then icbrtAux fuel mid hi n else icbrtAux fuel lo mid n

/-- Integer cube root (largest `r` with `r ^ 3 ≤ n`). -/
def icbrt (n : Nat) : Nat := icbrtAux 256 0 (n + 1) n

/-- The first 64 primes, whose cube roots yield the round constants. -/
def primes64 : List Nat :=
  [2, 3, 5, 7, 11, 13, 17, 19, 23, 29, 31, 37, 41, 43, 47, 53,
   59, 61, 67, 71, 73, 79, 83, 89, 97, 101, 103, 107, 109, 113, 127, 131,
   137, 139, 149, 151, 157, 163, 167, 173, 179, 181, 191, 193, 197, 199, 211, 223,
   227, 229, 233, 239, 241, 251, 257, 263, 269, 271, 277, 281, 283, 293, 307, 311]

/-- The first 8 primes, whose square roots yield the initial hash words. -/
def primes8 : List Nat := [2, 3, 5, 7, 11, 13, 17, 19]

/-- Round constant: the first 32 fractional bits of the cube root of a prime. -/
def kOfPrime (p : Nat) : Nat := icbrt (p * 2 ^ 96) - icbrt p * 2 ^ 32

/-- Initial word: the first 32 fractional bits of the square root of a prime. -/
def hOfPrime (p : Nat) : Nat := Nat.sqrt (p * 2 ^ 64) - Nat.sqrt p * 2 ^ 32

def kConsts : List Nat := primes64.map kOfPrime

/-- The eight working words of the compression state. -/
structure Hash8 where
  w0 : Nat
  w1 : Nat
  w2 : Nat
  w3 : Nat
  w4 : Nat
  w5 : Nat
  w6 : Nat
  w7 : Nat
deriving Repr, DecidableEq

def initHash : Hash8 :=
  { w0 := hOfPrime 2, w1 := hOfPrime 3, w2 := hOfPrime 5, w3 := hOfPrime 7,
    w4 := hOfPrime 11, w5 := hOfPrime 13, w6 := hOfPrime 17, w7 := hOfPrime 19 }

/-- Big-endian grouping of bytes into 32-bit words. -/
def bytesToWordsBE : List Nat → List Nat
  | b0 :: b1 :: b2 :: b3 :: rest =>
      (b0 * 2 ^ 24 + b1 * 2 ^ 16 + b2 * 2 ^ 8 + b3) :: bytesToWordsBE rest
  | _ => []

/-- Extend the 16-word schedule to 64 words. -/
def extendSchedule : Nat → List Nat → List Nat
  | 0, w => w
  | fuel + 1, w =>
      let len := w.length
      let nxt := w32m (smallSigma1 (w.getD (len - 2) 0) + w.getD (len - 7) 0 +
        smallSigma0 (w.getD (len - 15) 0) + w.getD (len - 16) 0)
      extendSchedule fuel (w ++ [nxt])

/-- One compression round for a `(constant, schedule word)` pair. -/
def sha256Round (st : Hash8) (kw : Nat × Nat) : Hash8 :=
  let t1 := w32m (st.w7 + bigSigma1 st.w4 + chFn st.w4 st.w5 st.w6 + kw.1 + kw.2)
  let t2 := w32m (bigSigma0 st.w0 + majFn st.w0 st.w1 st.w2)
  { w0 := w32m (t1 + t2), w1 := st.w0, w2 := st.w1, w3 := st.w2,
    w4 := w32m (st.w3 + t1), w5 := st.w4, w6 := st.w5, w7 := st.w6 }

/-- Compress one 64-byte block into the running hash state. -/
def processBlock (st : Hash8) (block : List Nat) : Hash8 :=
  let w := extendSchedule 48 (bytesToWordsBE block)
  let r := (kConsts.zip w).foldl sha256Round st
  { w0 := w32m (st.w0 + r.w0), w1 := w32m (st.w1 + r.w1), w2 := w32m (st.w2 + r.w2),
    w3 := w32m (st.w3 + r.w3), w4 := w32m (st.w4 + r.w4), w5 := w32m (st.w5 + r.w5),
    w6 := w32m (st.w6 + r.w6), w7 := w32m (st.w7 + r.w7) }

/-- The bit length of the message, as eight big-endian bytes. -/
def lenBytesBE (n : Nat) : List Nat :=
  [n / 2 ^ 56 % 256, n / 2 ^ 48 % 256, n / 2 ^ 40 % 256, n / 2 ^ 32 % 256,
   n / 2 ^ 24 % 256, n / 2 ^ 16 % 256, n / 2 ^ 8 % 256, n % 256]

/-- Append the `0x80` marker, zero padding to 56 mod 64, and the length. -/
def padMessage (msg : List Nat) : List Nat :=
  msg ++ [128] ++ List.replicate ((119 - msg.length % 64) % 64) 0 ++
    lenBytesBE (msg.length * 8)

/-- Split a byte list into 64-byte blocks; the fuel bounds the block count. -/
def chunks64F : Nat → List Nat → List (List Nat)
  | 0, _ => []
  | fuel + 1, l => if l = [] then [] else l.take 64 :: chunks64F fuel (l.drop 64)

def chunks64 (l : List Nat) : List (List Nat) := chunks64F (l.length + 1) l

def sha256Digest (msg : List Nat) : Hash8 :=
  (chunks64 (padMessage msg)).foldl processBlock initHash

/-- UTF-8 encoding of one code point (embedding of Python `str.encode()`). -/
def utf8Bytes (c : Nat) : List Nat :=
  if c < 128 then [c]
  else if c < 2048 then [192 + c / 64, 128 + c % 64]
  else if c < 65536 then [224 + c / 4096, 128 + c / 64 % 64, 128 + c % 64]
  else [240 + c / 262144, 128 + c / 4096 % 64, 128 + c / 64 % 64, 128 + c % 64]

def strBytes (s : String) : List Nat :=
  s.data.foldr (fun ch acc => utf8Bytes ch.toNat ++ acc) []

def hexDigit (n : Nat) : Char :=
  if n < 10 then Char.ofNat (48 + n) else Char.ofNat (87 + n)

/-- Two lowercase hexadecimal characters for one byte. -/
def byteHex (b : Nat) : String := String.mk [hexDigit (b / 16 % 16), hexDigit (b % 16)]

def bytesToHex : List Nat → String
  | [] => ""
  | b :: rest => byteHex b ++ bytesToHex rest

/-- One 32-bit word as four big-endian bytes. -/
def wordBE (x : Nat) : List Nat := [x / 2 ^ 24 % 256, x / 2 ^ 16 % 256, x / 2 ^ 8 % 256, x % 256]

def digestBytes (st : Hash8) : List Nat :=
  wordBE st.w0 ++ wordBE st.w1 ++ wordBE st.w2 ++ wordBE st.w3 ++
  wordBE st.w4 ++ wordBE st.w5 ++ wordBE st.w6 ++ wordBE st.w7

/-- Embedding of `hashlib.sha256(s.encode()).hexdigest()`. -/
def sha256hex (s : String) : String := bytesToHex (digestBytes (sha256Digest (strBytes s)))

/-! ### Data model (`chat/models.py`)

Rows mirror the model fields the claims are about; timestamps are a logical
clock (`Nat`), and primary keys start at 1 as Django's autofields do. -/

structure ConversationRow where
  userId : Nat
  title : String
  createdAt : Nat
  updatedAt : Nat
  messageCount : Nat
deriving Repr, DecidableEq

structure MessageRow where
  conversationId : Nat
  content : String
  isFromUser : Bool
  createdAt : Nat
  contentHash : String
deriving Repr, DecidableEq

structure ChatDB where
  conversations : List (Nat × ConversationRow)
  messages : List (Nat × MessageRow)
  nextConvPk : Nat
  nextMsgPk : Nat
deriving Repr, DecidableEq

def emptyDB : ChatDB := { conversations := [], messages := [], nextConvPk := 1, nextMsgPk := 1 }

def ChatDB.getConv (db : ChatDB) (pk : Nat) : Option ConversationRow :=
  (db.conversations.find? (fun p => p.1 == pk)).map Prod.snd

/-- The reverse accessor `conversation.messages` (ORM related manager). -/
def ChatDB.messagesOf (db : ChatDB) (cid : Nat) : List (Nat × MessageRow) :=
  db.messages.filter (fun q => q.2.conversationId == cid)

/-- Model of `ORDER BY created_at LIMIT 1`: earliest-created entry, first on ties. -/
def firstByCreated (l : List (Nat × MessageRow)) : Option (Nat × MessageRow) :=
  l.foldl
    (fun acc q => match acc with
      | none => some q
      | some r => if q.2.createdAt < r.2.createdAt then some q else some r)
    none

/-- Stable insertion for `ORDER BY -updated_at`. -/
def insertByUpdatedDesc (p : Nat × ConversationRow) :
    List (Nat × ConversationRow) → List (Nat × ConversationRow)
  | [] => [p]
  | q :: rest =>
      if p.2.updatedAt ≤ q.2.updatedAt then q :: insertByUpdatedDesc p rest
      else p :: q :: rest

def sortByUpdatedDesc (l : List (Nat × ConversationRow)) : List (Nat × ConversationRow) :=
  l.foldr insertByUpdatedDesc []

/-! ### Cache (`django.core.cache`) -/

inductive CacheVal where
  | convList : List (Nat × ConversationRow) → CacheVal
  | msgList : List (Nat × MessageRow) → CacheVal
deriving Repr, DecidableEq

structure Cache where
  entries : List (String × CacheVal)
deriving Repr, DecidableEq

def emptyCache : Cache := { entries := [] }

def Cache.get (c : Cache) (key : String) : Option CacheVal :=
  (c.entries.find? (fun e => e.1 == key)).map Prod.snd

def Cache.set (c : Cache) (key : String) (v : CacheVal) : Cache :=
  { entries := (key, v) :: c.entries.filter (fun e => ¬ e.1 == key) }

def Cache.deleteMany (c : Cache) (keys : List String) : Cache :=
  { entries := c.entries.filter (fun e => ¬ keys.contains e.1) }

/-- Key `f'conversation_{self.pk}'`. -/
def convKey (pkStr : String) : String := "conversation_" ++ pkStr

/-- Key `f'user_conversations_{self.user_id}'` used by `invalidate_cache`. -/
def userConvsBaseKey (uid : Nat) : String := "user_conversations_" ++ toString uid

/-- Key `f'user_conversations_{user.id}_{limit}'` used by the cached list read. -/
def userConvsKey (uid limit : Nat) : String :=
  "user_conversations_" ++ toString uid ++ "_" ++ toString limit

/-- Key `f'conversation_messages_{self.pk}'`. -/
def convMsgsKey (pkStr : String) : String := "conversation_messages_" ++ pkStr

/-! ### Conversation operations -/

/-- An in-memory model instance: `pk` is `none` before the first insert. -/
structure ConvInstance where
  pk : Option Nat
  row : ConversationRow
deriving Repr, DecidableEq

/-- How Python renders `self.pk` inside an f-string. -/
def ConvInstance.pkStr (self : ConvInstance) : String :=
  match self.pk with
  | some n => toString n
  | none => "None"

/-- Model of `Conversation.invalidate_cache`. -/
def ConvInstance.invalidate_cache (self : ConvInstance) (c : Cache) : Cache :=
  c.deleteMany
    [convKey self.pkStr, userConvsBaseKey self.row.userId, convMsgsKey self.pkStr]

/-- Model of `self.messages` on an instance (empty when the instance has no pk). -/
def ConvInstance.messagesIn (self : ConvInstance) (db : ChatDB) : List (Nat × MessageRow) :=
  match self.pk with
  | some pk => db.messagesOf pk
  | none => []

/-- Embedding of the truncation
`first_message.content[:50] + ('...' if len(first_message.content) > 50 else '')`. -/
def truncatedTitle (content : String) : String :=
  content.take 50 ++ (if 50 < content.length then "..." else "")

/-- The two call shapes of `Conversation.save` in the source: a plain
`save()` and `save(update_fields=['message_count'])`. -/
inductive SaveMode where
  | full
  | onlyMessageCount
deriving Repr, DecidableEq

/-- Title derivation step at the top of `Conversation.save`. -/
def deriveTitle (db : ChatDB) (self : ConvInstance) : ConvInstance :=
  if self.row.title = "" ∧ self.pk.isSome ∧ self.messagesIn db ≠ [] then
    match firstByCreated ((self.messagesIn db).filter (fun q => q.2.isFromUser)) with
    | some fm => { self with row := { self.row with title := truncatedTitle fm.2.content } }
    | none => self
  else self

/-- The `super().save(...)` database write: insert on a fresh instance,
otherwise an update restricted by `update_fields`.  `auto_now`/`auto_now_add`
stamp `now` only on the columns actually written. -/
def dbWriteConv (db : ChatDB) (self : ConvInstance) (mode : SaveMode) (now : Nat) :
    ChatDB × ConvInstance :=
  match self.pk with
  | none =>
      let row := { self.row with createdAt := now, updatedAt := now }
      ({ db with conversations := db.conversations ++ [(db.nextConvPk, row)],
                 nextConvPk := db.nextConvPk + 1 },
       { pk := some db.nextConvPk, row := row })
  | some pk =>
      match mode with
      | SaveMode.full =>
          let row := { self.row with updatedAt := now }
          ({ db with conversations :=
              db.conversations.map (fun p => if p.1 == pk then (p.1, row) else p) },
           { self with row := row })
      | SaveMode.onlyMessageCount =>
          ({ db with conversations :=
              db.conversations.map (fun p =>
                if p.1 == pk then (p.1, { p.2 with messageCount := self.row.messageCount })
                else p) },
           self)

/-- Model of `Conversation.save`: derive the title, invalidate caches, then write. -/
def Conversation.save (db : ChatDB) (c : Cache) (self : ConvInstance) (mode : SaveMode)
    (now : Nat) : ChatDB × Cache × ConvInstance :=
  let self := deriveTitle db self
  let c := self.invalidate_cache c
  let r := dbWriteConv db self mode now
  (r.1, c, r.2)

/-- Model of `Conversation.update_message_count`: full recount, then a save restricted
to the `message_count` column. -/
def Conversation.update_message_count (db : ChatDB) (c : Cache) (self : ConvInstance)
    (now : Nat) : ChatDB × Cache × ConvInstance :=
  let self := { self with row := { self.row with messageCount := (self.messagesIn db).length } }
  Conversation.save db c self SaveMode.onlyMessageCount now

/-- Model of `Conversation.get_user_conversations_cached`. -/
def get_user_conversations_cached (db : ChatDB) (c : Cache) (uid limit : Nat) :
    Cache × List (Nat × ConversationRow) :=
  let key := userConvsKey uid limit
  match c.get key with
  | some (CacheVal.convList l) => (c, l)
  | _ =>
      let convs := (sortByUpdatedDesc (db.conversations.filter (fun p => p.2.userId == uid))).take limit
      (c.set key (CacheVal.convList convs), convs)

/-- Model of `Conversation.get_messages_cached`. -/
def get_messages_cached (db : ChatDB) (c : Cache) (self : ConvInstance) :
    Cache × List (Nat × MessageRow) :=
  let key := convMsgsKey self.pkStr
  match c.get key with
  | some (CacheVal.msgList l) => (c, l)
  | _ =>
      let msgs := self.messagesIn db
      (c.set key (CacheVal.msgList msgs), msgs)

/-! ### Message operations -/

structure MsgInstance where
  pk : Option Nat
  row : MessageRow
deriving Repr, DecidableEq

/-- A fresh `Message(conversation=…, content=…, is_from_user=…)`. -/
def newMsgInstance (cid : Nat) (content : String) (isUser : Bool) : MsgInstance :=
  { pk := none,
    row := { conversationId := cid, content := content, isFromUser := isUser,
             createdAt := 0, contentHash := "" } }

/-- Model of `Message.save`: hash bookkeeping, the row write, then — for a new row —
the conversation timestamp assignment, recount and cache invalidation. -/
def Message.save (db : ChatDB) (c : Cache) (self : MsgInstance) (now : Nat) :
    ChatDB × Cache × MsgInstance :=
  let self :=
    if self.row.contentHash = "" then
      { self with row := { self.row with contentHash := sha256hex self.row.content } }
    else self
  let isNew := self.pk.isNone
  let r0 : ChatDB × MsgInstance :=
    match self.pk with
    | none =>
        let row := { self.row with createdAt := now }
        ({ db with messages := db.messages ++ [(db.nextMsgPk, row)],
                   nextMsgPk := db.nextMsgPk + 1 },
         { pk := some db.nextMsgPk, row := row })
    | some mpk =>
        ({ db with messages :=
            db.messages.map (fun q => if q.1 == mpk then (q.1, self.row) else q) },
         self)
  let db := r0.1
  let self := r0.2
  if isNew then
    match db.getConv self.row.conversationId with
    | some crow =>
        let conv : ConvInstance :=
          { pk := some self.row.conversationId,
            row := { crow with updatedAt := self.row.createdAt } }
        let r := Conversation.update_message_count db c conv now
        (r.1, ConvInstance.invalidate_cache r.2.2 r.2.1, self)
    | none => (db, c, self)
  else (db, c, self)

/-- Model of `Message.delete`: remove the row, then recount and invalidate. -/
def Message.delete (db : ChatDB) (c : Cache) (mpk : Nat) (now : Nat) : ChatDB × Cache :=
  match db.messages.find? (fun q => q.1 == mpk) with
  | none => (db, c)
  | some found =>
      let db := { db with messages := db.messages.filter (fun q => ¬ q.1 == mpk) }
      match db.getConv found.2.conversationId with
      | some crow =>
          let conv : ConvInstance := { pk := some found.2.conversationId, row := crow }
          let r := Conversation.update_message_count db c conv now
          (r.1, ConvInstance.invalidate_cache r.2.2 r.2.1)
      | none => (db, c)

/-! ### The persistence-layer state machine -/

structure ChatState where
  db : ChatDB
  cache : Cache
  now : Nat
deriving Repr, DecidableEq

def initState : ChatState := { db := emptyDB, cache := emptyCache, now := 0 }

/-- A fresh `Conversation(user=…)` with an empty title and zero count. -/
def newConvInstance (uid : Nat) : ConvInstance :=
  { pk := none,
    row := { userId := uid, title := "", createdAt := 0, updatedAt := 0, messageCount := 0 } }

/-- The mutating operations of the persistence layer the invariant claims
range over.  Appends to a nonexistent conversation and deletes of a
nonexistent message are no-ops (the database would reject them). -/
inductive ChatOp where
  | createConv (uid : Nat)
  | append (cid : Nat) (content : String) (isUser : Bool)
  | deleteMsg (mpk : Nat)
deriving Repr, DecidableEq

def step (s : ChatState) (op : ChatOp) : ChatState :=
  match op with
  | ChatOp.createConv uid =>
      let r := Conversation.save s.db s.cache (newConvInstance uid) SaveMode.full s.now
      { db := r.1, cache := r.2.1, now := s.now + 1 }
  | ChatOp.append cid content isUser =>
      if (s.db.getConv cid).isSome then
        let r := Message.save s.db s.cache (newMsgInstance cid content isUser) s.now
        { db := r.1, cache := r.2.1, now := s.now + 1 }
      else { s with now := s.now + 1 }
  | ChatOp.deleteMsg mpk =>
      let r := Message.delete s.db s.cache mpk s.now
      { db := r.1, cache := r.2, now := s.now + 1 }

def run (s : ChatState) (ops : List ChatOp) : ChatState := ops.foldl step s

/-! ### Daily statistics (`ConversationStats`) -/

structure StatsRow where
  date : Nat
  totalConversations : Nat
  totalMessages : Nat
  activeUsers : Nat
  avgMessagesPerConversation : ℚ
deriving Repr, DecidableEq

/-- Row defaults used by `get_or_create(date=today)`. -/
def blankStats (today : Nat) : StatsRow :=
  { date := today, totalConversations := 0, totalMessages := 0, activeUsers := 0,
    avgMessagesPerConversation := 0 }

/-- Model of `Conversation.objects.aggregate(avg=Avg('message_count'))['avg']`:
SQL `AVG` is `NULL` on an empty table. -/
def aggAvg (l : List Nat) : Option ℚ :=
  if l = [] then none else some ((l.sum : ℚ) / (l.length : ℚ))

/-- Python `x or default` on an optional float: `None` and `0.0` are falsy. -/
def pyOrFloat (x : Option ℚ) (default : ℚ) : ℚ :=
  match x with
  | none => default
  | some v => if v = 0 then default else v

/-- The four freshly computed statistics for today. -/
def computeStats (db : ChatDB) (today : Nat) : StatsRow :=
  { date := today,
    totalConversations := db.conversations.length,
    totalMessages := db.messages.length,
    activeUsers := (db.conversations.map (fun p => p.2.userId)).dedup.length,
    avgMessagesPerConversation :=
      pyOrFloat (aggAvg (db.conversations.map (fun p => p.2.messageCount))) 0 }

/-- Model of `ConversationStats.update_daily_stats`: `get_or_create` the row for
today, overwrite its fields with the fresh totals, save in place.  Returns
the table and the row the call returns. -/
def update_daily_stats (db : ChatDB) (sdb : List StatsRow) (today : Nat) :
    List StatsRow × StatsRow :=
  let sdb := if sdb.any (fun r => r.date == today) then sdb else sdb ++ [blankStats today]
  let fresh := computeStats db today
  (sdb.map (fun r => if r.date == today then fresh else r), fresh)

/-! ### Lab completion (`LabCompletion`) -/

structure LabCompletion where
  startedAt : Nat
  completedAt : Option Nat
  isCompleted : Bool
  submissionNotes : String
  flagSubmitted : String
  score : Nat
  attempts : Nat
  hintsUsed : Nat
deriving Repr, DecidableEq

/-- A fresh `LabCompletion` row with its field defaults. -/
def newLabCompletion (startedAt : Nat) : LabCompletion :=
  { startedAt := startedAt, completedAt := none, isCompleted := false,
    submissionNotes := "", flagSubmitted := "", score := 0, attempts := 0, hintsUsed := 0 }

/-- Model of `LabCompletion.mark_complete(self, score=100)`. -/
def LabCompletion.mark_complete (self : LabCompletion) (now : Nat)
    (score : Nat := 100) : LabCompletion :=
  { self with isCompleted := true, completedAt := some now, score := score }

/-- The mutations of a `LabCompletion` row found in the source: the model
method `mark_complete` (also the one the admin bulk action calls), and the
admin `reset_progress` bulk update
`queryset.update(is_completed=False, completed_at=None, score=0)`. -/
inductive LabOp where
  | markComplete (now : Nat) (score : Nat)
  | resetProgress
deriving Repr, DecidableEq

def LabOp.apply : LabOp → LabCompletion → LabCompletion
  | LabOp.markComplete now score, s => s.mark_complete now score
  | LabOp.resetProgress, s =>
      { s with isCompleted := false, completedAt := none, score := 0 }

/-! ### Digest shape lemmas -/

theorem byteHex_length (b : Nat) : (byteHex b).length = 2 := rfl

theorem bytesToHex_length (l : List Nat) : (bytesToHex l).length = 2 * l.length := by
  induction l with
  | nil => rfl
  | cons b rest ih =>
      simp only [bytesToHex, String.length_append, byteHex_length, ih, List.length_cons]
      omega

theorem digestBytes_length (st : Hash8) : (digestBytes st).length = 32 := by
  simp [digestBytes, wordBE]

theorem sha256hex_length (s : String) : (sha256hex s).length = 64 := by
  unfold sha256hex
  rw [bytesToHex_length, digestBytes_length]

theorem sha256hex_ne_empty (s : String) : sha256hex s ≠ "" := by
  intro h
  have hl := sha256hex_length s
  rw [h] at hl
  exact absurd hl (by decide)

/-- The content hash the instance carries after `Message.save`: computed
from the content when it was absent, untouched otherwise. -/
theorem save_contentHash_eq (db : ChatDB) (c : Cache) (m : MsgInstance) (now : Nat) :
    (Message.save db c m now).2.2.row.contentHash =
      if m.row.contentHash = "" then sha256hex m.row.content else m.row.contentHash := by
  unfold Message.save
  cases hpk : m.pk <;>
    simp only [hpk] <;>
    split <;>
    simp_all <;>
    split <;>
    simp_all

/-! ### Claims about the content hash -/

/-- C6: a message's content hash is a deterministic function of its text
(equal texts hash to equal digests), is non-empty after the message is
saved for any content, is computed exactly once at creation when absent,
and once set is never recomputed on a later save even if the content
changed. -/
theorem content_hash_deterministic_nonempty_never_recomputed
    (db1 db2 db3 : ChatDB) (c1 c2 c3 : Cache) (m1 m2 m3 : MsgInstance)
    (now1 now2 now3 : Nat)
    (h1 : m1.row.contentHash = "")
    (h2 : m2.row.contentHash = "")
    (heq : m1.row.content = m2.row.content)
    (h3 : m3.row.contentHash ≠ "") :
    (Message.save db1 c1 m1 now1).2.2.row.contentHash = sha256hex m1.row.content ∧
    (Message.save db1 c1 m1 now1).2.2.row.contentHash =
      (Message.save db2 c2 m2 now2).2.2.row.contentHash ∧
    (Message.save db1 c1 m1 now1).2.2.row.contentHash ≠ "" ∧
    (Message.save db3 c3 m3 now3).2.2.row.contentHash = m3.row.contentHash := by
  rw [save_contentHash_eq, save_contentHash_eq, save_contentHash_eq]
  rw [if_pos h1, if_pos h2, if_neg h3, heq]
  exact ⟨rfl, rfl, sha256hex_ne_empty _, rfl⟩

/-- A persisted message whose hash is already set but whose content was
edited afterwards, for exercising the no-recompute branch. -/
def staleHashMsg : MsgInstance :=
  { pk := some 1,
    row := { conversationId := 1, content := "changed", isFromUser := true,
             createdAt := 0, contentHash := "abcd" } }

theorem content_hash_deterministic_nonempty_never_recomputed_witness :
    ((newMsgInstance 1 "hi" true).row.contentHash = "" ∧
     (newMsgInstance 1 "hi" false).row.contentHash = "" ∧
     (newMsgInstance 1 "hi" true).row.content = (newMsgInstance 1 "hi" false).row.content ∧
     staleHashMsg.row.contentHash ≠ "") ∧
    ((Message.save emptyDB emptyCache (newMsgInstance 1 "hi" true) 0).2.2.row.contentHash =
       sha256hex (newMsgInstance 1 "hi" true).row.content ∧
     (Message.save emptyDB emptyCache (newMsgInstance 1 "hi" true) 0).2.2.row.contentHash =
       (Message.save emptyDB emptyCache (newMsgInstance 1 "hi" false) 7).2.2.row.contentHash ∧
     (Message.save emptyDB emptyCache (newMsgInstance 1 "hi" true) 0).2.2.row.contentHash ≠ "" ∧
     (Message.save emptyDB emptyCache staleHashMsg 3).2.2.row.contentHash =
       staleHashMsg.row.contentHash) :=
  ⟨⟨rfl, rfl, rfl, by decide⟩,
   content_hash_deterministic_nonempty_never_recomputed
     emptyDB emptyDB emptyDB emptyCache emptyCache emptyCache
     (newMsgInstance 1 "hi" true) (newMsgInstance 1 "hi" false) staleHashMsg
     0 7 3 rfl rfl rfl (by decide)⟩

/-! ### Claims about lab completion -/

/-- C9: on an in-progress `LabCompletion`, `mark_complete` sets the
completed flag, stamps the completion time, fixes the score, and — among
the row mutations in the source — is the only operation that transitions
the row into the completed state. -/
theorem mark_complete_is_the_only_completing_transition
    (s : LabCompletion) (now score : Nat) (_h : s.isCompleted = false) :
    ((s.mark_complete now score).isCompleted = true ∧
     (s.mark_complete now score).completedAt = some now ∧
     (s.mark_complete now score).score = score) ∧
    (∀ op : LabOp, (op.apply s).isCompleted = true →
      ∃ n sc, op = LabOp.markComplete n sc) := by
  refine ⟨⟨rfl, rfl, rfl⟩, ?_⟩
  intro op hop
  cases op with
  | markComplete n sc => exact ⟨n, sc, rfl⟩
  | resetProgress => simp [LabOp.apply] at hop

theorem mark_complete_is_the_only_completing_transition_witness :
    (newLabCompletion 0).isCompleted = false ∧
    ((((newLabCompletion 0).mark_complete 3 85).isCompleted = true ∧
      ((newLabCompletion 0).mark_complete 3 85).completedAt = some 3 ∧
      ((newLabCompletion 0).mark_complete 3 85).score = 85) ∧
     (∀ op : LabOp, (op.apply (newLabCompletion 0)).isCompleted = true →
       ∃ n sc, op = LabOp.markComplete n sc)) :=
  ⟨by decide, mark_complete_is_the_only_completing_transition (newLabCompletion 0) 3 85 (by decide)⟩

/-- C10: `mark_complete` has no re-invocation guard: on an already
completed row it unconditionally overwrites the completion time with the
current time and the score with the supplied value, and the score argument
defaults to 100. -/
theorem mark_complete_overwrites_completed_row
    (s : LabCompletion) (now score : Nat) (_h : s.isCompleted = true) :
    (s.mark_complete now score).completedAt = some now ∧
    (s.mark_complete now score).score = score ∧
    (∀ n, s.mark_complete n = s.mark_complete n 100) :=
  ⟨rfl, rfl, fun _ => rfl⟩

theorem mark_complete_overwrites_completed_row_witness :
    ((newLabCompletion 0).mark_complete 1 50).isCompleted = true ∧
    ((((newLabCompletion 0).mark_complete 1 50).mark_complete 9 70).completedAt = some 9 ∧
     (((newLabCompletion 0).mark_complete 1 50).mark_complete 9 70).score = 70 ∧
     (∀ n, ((newLabCompletion 0).mark_complete 1 50).mark_complete n =
        ((newLabCompletion 0).mark_complete 1 50).mark_complete n 100)) :=
  ⟨by decide,
   mark_complete_overwrites_completed_row ((newLabCompletion 0).mark_complete 1 50) 9 70 (by decide)⟩

/-! ### Claims about the statistics rollup -/

theorem filter_map_overwrite (l : List StatsRow) (fresh : StatsRow) (today : Nat)
    (hf : fresh.date = today) :
    (l.map (fun r => if r.date == today then fresh else r)).filter
        (fun r => r.date == today) =
      List.replicate ((l.filter (fun r => r.date == today)).length) fresh := by
  induction l with
  | nil => rfl
  | cons r rest ih =>
      cases hr : (r.date == today) with
      | true =>
          have hfr : (fresh.date == today) = true := by simp [hf]
          simp only [List.map_cons, List.filter_cons, hr, if_true, hfr, ih,
            List.length_cons, List.replicate_succ]
      | false =>
          simp only [List.map_cons, List.filter_cons, hr, if_false, ih,
            Bool.false_eq_true]

/-- After one rollup call the table holds exactly the freshly computed row
for today (provided the date-uniqueness constraint held beforehand). -/
theorem update_daily_stats_filter (db : ChatDB) (sdb : List StatsRow) (today : Nat)
    (h : (sdb.filter (fun r => r.date == today)).length ≤ 1) :
    ((update_daily_stats db sdb today).1).filter (fun r => r.date == today) =
      [computeStats db today] := by
  unfold update_daily_stats
  cases hany : sdb.any (fun r => r.date == today) with
  | true =>
      have hne : sdb.filter (fun r => r.date == today) ≠ [] := by
        rcases List.any_eq_true.mp hany with ⟨x, hx, hpx⟩
        intro hnil
        exact absurd hpx (by simpa using List.filter_eq_nil_iff.mp hnil x hx)
      have hlen : (sdb.filter (fun r => r.date == today)).length = 1 := by
        have := List.length_pos.mpr hne
        omega
      simp only [hany, if_true]
      rw [filter_map_overwrite _ _ _ (by rfl), hlen]
      rfl
  | false =>
      have hnil : sdb.filter (fun r => r.date == today) = [] := by
        rw [List.filter_eq_nil_iff]
        intro x hx
        simpa using List.any_eq_false.mp hany x hx
      simp only [hany, Bool.false_eq_true, if_false]
      rw [filter_map_overwrite _ _ _ (by rfl), List.filter_append, hnil]
      simp [blankStats]

/-- C7: calling the recompute-today operation twice on the same day leaves
exactly one stats row for that date, holding the second call's values. -/
theorem stats_rollup_twice_one_row_second_values
    (db1 db2 : ChatDB) (sdb : List StatsRow) (today : Nat)
    (h : (sdb.filter (fun r => r.date == today)).length ≤ 1) :
    ((update_daily_stats db2 (update_daily_stats db1 sdb today).1 today).1.filter
        (fun r => r.date == today)) = [computeStats db2 today] ∧
    (update_daily_stats db2 (update_daily_stats db1 sdb today).1 today).2 =
      computeStats db2 today := by
  constructor
  · apply update_daily_stats_filter
    rw [update_daily_stats_filter db1 sdb today h]
    simp
  · rfl

theorem stats_rollup_twice_one_row_second_values_witness :
    (([] : List StatsRow).filter (fun r => r.date == 3)).length ≤ 1 ∧
    (((update_daily_stats (run initState [ChatOp.createConv 4]).db
          (update_daily_stats emptyDB [] 3).1 3).1.filter
        (fun r => r.date == 3)) = [computeStats (run initState [ChatOp.createConv 4]).db 3] ∧
     (update_daily_stats (run initState [ChatOp.createConv 4]).db
        (update_daily_stats emptyDB [] 3).1 3).2 =
       computeStats (run initState [ChatOp.createConv 4]).db 3) :=
  ⟨by decide,
   stats_rollup_twice_one_row_second_values emptyDB
     (run initState [ChatOp.createConv 4]).db [] 3 (by decide)⟩

/-- C8: with zero conversations the rollup succeeds and records an average
messages-per-conversation of `0`. -/
theorem stats_avg_zero_without_conversations
    (db : ChatDB) (sdb : List StatsRow) (today : Nat) (h : db.conversations = []) :
    (update_daily_stats db sdb today).2.avgMessagesPerConversation = 0 ∧
    ∀ r ∈ (update_daily_stats db sdb today).1, r.date = today →
      r.avgMessagesPerConversation = 0 := by
  have hc : computeStats db today =
      { date := today, totalConversations := 0, totalMessages := db.messages.length,
        activeUsers := 0, avgMessagesPerConversation := 0 } := by
    simp [computeStats, h, aggAvg, pyOrFloat]
  constructor
  · show (computeStats db today).avgMessagesPerConversation = 0
    rw [hc]
  · intro r hr hrd
    unfold update_daily_stats at hr
    simp only at hr
    rcases List.mem_map.mp hr with ⟨r0, _hr0, hval⟩
    by_cases hd : r0.date = today
    · rw [if_pos (by simpa using hd)] at hval
      rw [← hval, hc]
    · rw [if_neg (by simpa using hd)] at hval
      exact absurd (hval ▸ hrd) hd

theorem stats_avg_zero_without_conversations_witness :
    emptyDB.conversations = [] ∧
    ((update_daily_stats emptyDB [blankStats 5] 5).2.avgMessagesPerConversation = 0 ∧
     ∀ r ∈ (update_daily_stats emptyDB [blankStats 5] 5).1, r.date = 5 →
       r.avgMessagesPerConversation = 0) :=
  ⟨rfl, stats_avg_zero_without_conversations emptyDB [blankStats 5] 5 rfl⟩

/-! ### Keyed-list lemmas shared by the persistence proofs -/

theorem find?_map_adjust {β : Type} (l : List (Nat × β)) (k : Nat) (f : β → β) :
    ((l.map (fun p => if p.1 == k then (p.1, f p.2) else p)).find? (fun p => p.1 == k)) =
      (l.find? (fun p => p.1 == k)).map (fun p => (p.1, f p.2)) := by
  induction l with
  | nil => rfl
  | cons p rest ih =>
      simp only [List.map_cons]
      cases hp : (p.1 == k) with
      | true =>
          rw [if_pos rfl, List.find?_cons_of_pos _ (by simpa using hp),
            List.find?_cons_of_pos _ (by simpa using hp)]
          rfl
      | false =>
          rw [if_neg (by simp), List.find?_cons_of_neg _ (by simp [hp]),
            List.find?_cons_of_neg _ (by simp [hp]), ih]

/-- Value of `getConv` after an in-place keyed update of the conversations table. -/
theorem getConv_map_adjust (db : ChatDB) (k : Nat) (f : ConversationRow → ConversationRow)
    (msgs : List (Nat × MessageRow)) (ncp nmp : Nat) :
    (ChatDB.getConv
      { conversations := db.conversations.map (fun p => if p.1 == k then (p.1, f p.2) else p),
        messages := msgs, nextConvPk := ncp, nextMsgPk := nmp } k) =
      (db.getConv k).map f := by
  unfold ChatDB.getConv
  rw [find?_map_adjust]
  cases db.conversations.find? (fun p => p.1 == k) <;> rfl

theorem deriveTitle_pk (db : ChatDB) (self : ConvInstance) :
    (deriveTitle db self).pk = self.pk := by
  unfold deriveTitle
  split
  · split <;> rfl
  · rfl

theorem deriveTitle_messageCount (db : ChatDB) (self : ConvInstance) :
    (deriveTitle db self).row.messageCount = self.row.messageCount := by
  unfold deriveTitle
  split
  · split <;> rfl
  · rfl

theorem deriveTitle_updatedAt (db : ChatDB) (self : ConvInstance) :
    (deriveTitle db self).row.updatedAt = self.row.updatedAt := by
  unfold deriveTitle
  split
  · split <;> rfl
  · rfl

/-- When the guard of the title back-fill fails, the instance is untouched. -/
theorem deriveTitle_eq_self (db : ChatDB) (self : ConvInstance)
    (h : ¬ (self.row.title = "" ∧ self.pk.isSome ∧ self.messagesIn db ≠ [])) :
    deriveTitle db self = self := by
  unfold deriveTitle
  rw [if_neg h]

/-- The conversations table after a constant keyed overwrite. -/
theorem getConv_map_const (db : ChatDB) (pk : Nat) (row : ConversationRow)
    (msgs : List (Nat × MessageRow)) (ncp nmp : Nat) :
    (ChatDB.getConv
      { conversations := db.conversations.map (fun p => if p.1 == pk then (p.1, row) else p),
        messages := msgs, nextConvPk := ncp, nextMsgPk := nmp } pk) =
      (db.getConv pk).map (fun _ => row) := by
  simpa using getConv_map_adjust db pk (fun _ => row) msgs ncp nmp

/-- Database effect of a full `Conversation.save` on a persisted instance. -/
theorem save_full_db (db : ChatDB) (c : Cache) (self : ConvInstance) (now pk : Nat)
    (hpk : self.pk = some pk) :
    (Conversation.save db c self SaveMode.full now).1 =
      { db with conversations := db.conversations.map (fun p =>
          if p.1 == pk then (p.1, { (deriveTitle db self).row with updatedAt := now })
          else p) } := by
  have hdp : (deriveTitle db self).pk = some pk := by rw [deriveTitle_pk, hpk]
  simp only [Conversation.save, dbWriteConv, hdp]

/-- Instance returned by a full `Conversation.save` on a persisted instance. -/
theorem save_full_inst (db : ChatDB) (c : Cache) (self : ConvInstance) (now pk : Nat)
    (hpk : self.pk = some pk) :
    (Conversation.save db c self SaveMode.full now).2.2 =
      { pk := (deriveTitle db self).pk,
        row := { (deriveTitle db self).row with updatedAt := now } } := by
  have hdp : (deriveTitle db self).pk = some pk := by rw [deriveTitle_pk, hpk]
  simp only [Conversation.save, dbWriteConv, hdp]

/-- Database effect of `save(update_fields=['message_count'])`: only the
`message_count` column of the existing row is written. -/
theorem save_onlyMC_db (db : ChatDB) (c : Cache) (self : ConvInstance) (now pk : Nat)
    (hpk : self.pk = some pk) :
    (Conversation.save db c self SaveMode.onlyMessageCount now).1 =
      { db with conversations := db.conversations.map (fun p =>
          if p.1 == pk then (p.1, { p.2 with messageCount := self.row.messageCount })
          else p) } := by
  have hdp : (deriveTitle db self).pk = some pk := by rw [deriveTitle_pk, hpk]
  simp only [Conversation.save, dbWriteConv, hdp, deriveTitle_messageCount]

/-- Instance returned by `save(update_fields=['message_count'])`. -/
theorem save_onlyMC_inst (db : ChatDB) (c : Cache) (self : ConvInstance) (now pk : Nat)
    (hpk : self.pk = some pk) :
    (Conversation.save db c self SaveMode.onlyMessageCount now).2.2 =
      deriveTitle db self := by
  have hdp : (deriveTitle db self).pk = some pk := by rw [deriveTitle_pk, hpk]
  simp only [Conversation.save, dbWriteConv, hdp]

/-! ### Claims about title derivation -/

/-- C4: saving an already-persisted conversation whose title is empty while
it has a user-authored message sets the title (in the instance and the
database row) to that message's text truncated to 50 characters, with an
ellipsis appended exactly when the text exceeds 50 characters; the very
first save of a never-persisted conversation never sets a title. -/
theorem save_backfills_title_from_first_user_message
    (db : ChatDB) (c : Cache) (self : ConvInstance) (now pk : Nat)
    (crow : ConversationRow) (fm : Nat × MessageRow)
    (hpk : self.pk = some pk)
    (htitle : self.row.title = "")
    (hdb : db.getConv pk = some crow)
    (hfm : firstByCreated ((db.messagesOf pk).filter (fun q => q.2.isFromUser)) = some fm) :
    ((Conversation.save db c self SaveMode.full now).2.2.row.title =
       fm.2.content.take 50 ++ (if 50 < fm.2.content.length then "..." else "")) ∧
    (((Conversation.save db c self SaveMode.full now).1.getConv pk).map
        (fun r => r.title) =
       some (fm.2.content.take 50 ++ (if 50 < fm.2.content.length then "..." else ""))) ∧
    (∀ (db2 : ChatDB) (c2 : Cache) (inst2 : ConvInstance) (now2 : Nat),
       inst2.pk = none →
       (Conversation.save db2 c2 inst2 SaveMode.full now2).2.2.row.title =
         inst2.row.title) := by
  have hmi : self.messagesIn db = db.messagesOf pk := by
    simp [ConvInstance.messagesIn, hpk]
  have hne : db.messagesOf pk ≠ [] := by
    intro h0
    rw [h0] at hfm
    simp [firstByCreated] at hfm
  have hderive : deriveTitle db self =
      { self with row := { self.row with title := truncatedTitle fm.2.content } } := by
    unfold deriveTitle
    rw [if_pos ⟨htitle, by simp [hpk], by rw [hmi]; exact hne⟩]
    rw [hmi, hfm]
  refine ⟨?_, ?_, ?_⟩
  · rw [save_full_inst db c self now pk hpk, hderive]
    rfl
  · rw [save_full_db db c self now pk hpk, hderive]
    have := getConv_map_const db pk
      { ({ self with
            row := { self.row with title := truncatedTitle fm.2.content } }
          : ConvInstance).row with updatedAt := now }
      db.messages db.nextConvPk db.nextMsgPk
    rw [this, hdb]
    rfl
  · intro db2 c2 inst2 now2 hpk2
    have hd2 : deriveTitle db2 inst2 = inst2 :=
      deriveTitle_eq_self db2 inst2 (by simp [hpk2])
    simp only [Conversation.save, dbWriteConv, hd2, hpk2]

/-- A small concrete database: one conversation of user 1 holding one
user-authored message. -/
def c4db : ChatDB :=
  { conversations :=
      [(1, { userId := 1, title := "", createdAt := 0, updatedAt := 0, messageCount := 1 })],
    messages :=
      [(1, { conversationId := 1, content := "hello", isFromUser := true,
             createdAt := 1, contentHash := "h" })],
    nextConvPk := 2, nextMsgPk := 2 }

def c4inst : ConvInstance :=
  { pk := some 1,
    row := { userId := 1, title := "", createdAt := 0, updatedAt := 0, messageCount := 1 } }

def c4fm : Nat × MessageRow :=
  (1, { conversationId := 1, content := "hello", isFromUser := true,
        createdAt := 1, contentHash := "h" })

theorem save_backfills_title_from_first_user_message_witness :
    (c4inst.pk = some 1 ∧ c4inst.row.title = "" ∧
     c4db.getConv 1 = some c4inst.row ∧
     firstByCreated ((c4db.messagesOf 1).filter (fun q => q.2.isFromUser)) = some c4fm) ∧
    (((Conversation.save c4db emptyCache c4inst SaveMode.full 9).2.2.row.title =
        c4fm.2.content.take 50 ++ (if 50 < c4fm.2.content.length then "..." else "")) ∧
     (((Conversation.save c4db emptyCache c4inst SaveMode.full 9).1.getConv 1).map
         (fun r => r.title) =
        some (c4fm.2.content.take 50 ++ (if 50 < c4fm.2.content.length then "..." else ""))) ∧
     (∀ (db2 : ChatDB) (c2 : Cache) (inst2 : ConvInstance) (now2 : Nat),
        inst2.pk = none →
        (Conversation.save db2 c2 inst2 SaveMode.full now2).2.2.row.title =
          inst2.row.title)) :=
  ⟨⟨rfl, rfl, by decide, by decide⟩,
   save_backfills_title_from_first_user_message c4db emptyCache c4inst 9 1 c4inst.row c4fm
     rfl rfl (by decide) (by decide)⟩

theorem getConv_map_msgCount (db : ChatDB) (pk cnt : Nat)
    (msgs : List (Nat × MessageRow)) (ncp nmp : Nat) :
    (ChatDB.getConv
      { conversations := db.conversations.map (fun p =>
          if p.1 == pk then (p.1, { p.2 with messageCount := cnt }) else p),
        messages := msgs, nextConvPk := ncp, nextMsgPk := nmp } pk) =
      (db.getConv pk).map (fun r => { r with messageCount := cnt }) := by
  simpa using getConv_map_adjust db pk (fun r => { r with messageCount := cnt }) msgs ncp nmp

/-- C5: a save never sets a title while the conversation has zero
messages, and a non-empty title is never overwritten by a save — in the
returned instance and in the persisted row, for both save shapes. -/
theorem title_never_set_without_messages_never_overwritten
    (db : ChatDB) (c : Cache) (self : ConvInstance) (mode : SaveMode) (now pk : Nat)
    (crow : ConversationRow)
    (hpk : self.pk = some pk)
    (hdb : db.getConv pk = some crow)
    (hco : self.row.title = crow.title) :
    (self.messagesIn db = [] →
       (Conversation.save db c self mode now).2.2.row.title = self.row.title ∧
       ((Conversation.save db c self mode now).1.getConv pk).map (fun r => r.title) =
         some self.row.title) ∧
    (self.row.title ≠ "" →
       (Conversation.save db c self mode now).2.2.row.title = self.row.title ∧
       ((Conversation.save db c self mode now).1.getConv pk).map (fun r => r.title) =
         some self.row.title) := by
  have main : deriveTitle db self = self →
      (Conversation.save db c self mode now).2.2.row.title = self.row.title ∧
      ((Conversation.save db c self mode now).1.getConv pk).map (fun r => r.title) =
        some self.row.title := by
    intro hderive
    cases mode with
    | full =>
        constructor
        · rw [save_full_inst db c self now pk hpk, hderive]
        · rw [save_full_db db c self now pk hpk, hderive]
          rw [getConv_map_const db pk { self.row with updatedAt := now }
            db.messages db.nextConvPk db.nextMsgPk, hdb]
          rfl
    | onlyMessageCount =>
        constructor
        · rw [save_onlyMC_inst db c self now pk hpk, hderive]
        · rw [save_onlyMC_db db c self now pk hpk]
          rw [getConv_map_msgCount db pk self.row.messageCount
            db.messages db.nextConvPk db.nextMsgPk, hdb]
          simpa using hco.symm
  constructor
  · intro hzero
    exact main (deriveTitle_eq_self db self (by simp [hzero]))
  · intro hne
    exact main (deriveTitle_eq_self db self (by simp [hne]))

def c5db : ChatDB :=
  { conversations :=
      [(1, { userId := 1, title := "t", createdAt := 0, updatedAt := 0, messageCount := 0 })],
    messages := [], nextConvPk := 2, nextMsgPk := 2 }

def c5inst : ConvInstance :=
  { pk := some 1,
    row := { userId := 1, title := "t", createdAt := 0, updatedAt := 0, messageCount := 0 } }

theorem title_never_set_without_messages_never_overwritten_witness :
    (c5inst.pk = some 1 ∧ c5db.getConv 1 = some c5inst.row ∧
     c5inst.row.title = c5inst.row.title) ∧
    ((c5inst.messagesIn c5db = [] →
        (Conversation.save c5db emptyCache c5inst SaveMode.full 5).2.2.row.title =
          c5inst.row.title ∧
        ((Conversation.save c5db emptyCache c5inst SaveMode.full 5).1.getConv 1).map
            (fun r => r.title) = some c5inst.row.title) ∧
     (c5inst.row.title ≠ "" →
        (Conversation.save c5db emptyCache c5inst SaveMode.full 5).2.2.row.title =
          c5inst.row.title ∧
        ((Conversation.save c5db emptyCache c5inst SaveMode.full 5).1.getConv 1).map
            (fun r => r.title) = some c5inst.row.title)) :=
  ⟨⟨rfl, by decide, rfl⟩,
   title_never_set_without_messages_never_overwritten c5db emptyCache c5inst SaveMode.full 5 1
     c5inst.row rfl (by decide) rfl⟩

/-! ### Cache-invalidation and timestamp behaviour on append -/

/-- State with one conversation of user 1. -/
def c2state : ChatState := run initState [ChatOp.createConv 1]

/-- The cache after the owner's conversation list was read (and cached)
with the default page size 20. -/
def c2cacheAfterRead : Cache := (get_user_conversations_cached c2state.db c2state.cache 1 20).1

/-- The state after a message is appended to the conversation. -/
def c2afterAppend : ChatDB × Cache × MsgInstance :=
  Message.save c2state.db c2cacheAfterRead (newMsgInstance 1 "hi" true) c2state.now

/-- C2 (falsified): the owner's page-size-keyed conversation-list cache
entry (`user_conversations_1_20`) is still present after an append;
`invalidate_cache` deletes the differently-spelled key
`user_conversations_1`, which the cached read never populates. -/
theorem append_leaves_owner_conversation_list_cache_entry :
    c2cacheAfterRead.get (userConvsKey 1 20) ≠ none ∧
    c2afterAppend.2.1.get (userConvsKey 1 20) = c2cacheAfterRead.get (userConvsKey 1 20) ∧
    c2afterAppend.2.1.get (userConvsKey 1 20) ≠ none ∧
    userConvsBaseKey 1 ≠ userConvsKey 1 20 ∧
    c2cacheAfterRead.get (userConvsBaseKey 1) = none := by
  refine ⟨by decide, by decide, by decide, by decide, by decide⟩

/-- Two conversations of user 1 (pks 1 and 2, updated at times 0 and 1),
then an append to conversation 1 at time 2. -/
def c3state : ChatState :=
  run initState [ChatOp.createConv 1, ChatOp.createConv 1, ChatOp.append 1 "hi" true]

/-- C3 (falsified): after the append, the new message's creation time is 2,
but the persisted `updated_at` of conversation 1 is still 0 — the
conversation row was saved with `update_fields=['message_count']`, which
never writes `updated_at` — so conversation 1 sorts second, not first, in
the owner's most-recently-updated ordering. -/
theorem append_does_not_persist_updated_at_nor_resort :
    ((c3state.db.messagesOf 1).map (fun q => q.2.createdAt) = [2]) ∧
    ((c3state.db.getConv 1).map (fun r => r.updatedAt) = some 0) ∧
    ((c3state.db.getConv 1).map (fun r => r.updatedAt) ≠ some 2) ∧
    ((sortByUpdatedDesc (c3state.db.conversations.filter (fun p => p.2.userId == 1))).map
        Prod.fst = [2, 1]) := by
  refine ⟨by decide, by decide, by decide, by decide⟩

/-! ### Database effect of each persistence operation -/

theorem update_message_count_db (db : ChatDB) (c : Cache) (self : ConvInstance)
    (now pk : Nat) (hpk : self.pk = some pk) :
    (Conversation.update_message_count db c self now).1 =
      { db with conversations := db.conversations.map (fun p =>
          if p.1 == pk then
            (p.1, { p.2 with messageCount := (db.messagesOf pk).length })
          else p) } := by
  unfold Conversation.update_message_count
  rw [save_onlyMC_db db c _ now pk (by simpa using hpk)]
  simp [ConvInstance.messagesIn, hpk]

theorem step_createConv_db (s : ChatState) (uid : Nat) :
    (step s (ChatOp.createConv uid)).db =
      { conversations := s.db.conversations ++
          [(s.db.nextConvPk, { userId := uid, title := "", createdAt := s.now,
                               updatedAt := s.now, messageCount := 0 })],
        messages := s.db.messages,
        nextConvPk := s.db.nextConvPk + 1,
        nextMsgPk := s.db.nextMsgPk } := rfl

/-- The message row the append operation persists. -/
def appendedRow (cid : Nat) (content : String) (isUser : Bool) (now : Nat) : MessageRow :=
  { conversationId := cid, content := content, isFromUser := isUser,
    createdAt := now, contentHash := sha256hex content }

theorem message_save_new_db (db : ChatDB) (c : Cache) (cid : Nat) (content : String)
    (isUser : Bool) (now : Nat) (crow : ConversationRow)
    (hc : db.getConv cid = some crow) :
    (Message.save db c (newMsgInstance cid content isUser) now).1 =
      { conversations := db.conversations.map (fun p =>
          if p.1 == cid then
            (p.1, { p.2 with messageCount :=
              ((db.messages ++ [(db.nextMsgPk, appendedRow cid content isUser now)]).filter
                (fun q => q.2.conversationId == cid)).length })
          else p),
        messages := db.messages ++ [(db.nextMsgPk, appendedRow cid content isUser now)],
        nextConvPk := db.nextConvPk,
        nextMsgPk := db.nextMsgPk + 1 } := by
  have hc2 : (db.conversations.find? (fun p => p.1 == cid)).map Prod.snd = some crow := hc
  unfold Message.save
  simp only [newMsgInstance]
  norm_num
  simp only [ChatDB.getConv]
  rw [hc2]
  rw [update_message_count_db _ _ _ now cid rfl]
  simp [ChatDB.messagesOf, appendedRow]

theorem step_append_db (s : ChatState) (cid : Nat) (content : String) (isUser : Bool)
    (crow : ConversationRow) (hc : s.db.getConv cid = some crow) :
    (step s (ChatOp.append cid content isUser)).db =
      { conversations := s.db.conversations.map (fun p =>
          if p.1 == cid then
            (p.1, { p.2 with messageCount :=
              ((s.db.messages ++ [(s.db.nextMsgPk, appendedRow cid content isUser s.now)]).filter
                (fun q => q.2.conversationId == cid)).length })
          else p),
        messages := s.db.messages ++ [(s.db.nextMsgPk, appendedRow cid content isUser s.now)],
        nextConvPk := s.db.nextConvPk,
        nextMsgPk := s.db.nextMsgPk + 1 } := by
  simp only [step]
  rw [if_pos (by simp [hc])]
  exact message_save_new_db s.db s.cache cid content isUser s.now crow hc

theorem message_delete_db (db : ChatDB) (c : Cache) (mpk now : Nat)
    (found : Nat × MessageRow) (crow : ConversationRow)
    (hfind : db.messages.find? (fun q => q.1 == mpk) = some found)
    (hconv : db.getConv found.2.conversationId = some crow) :
    (Message.delete db c mpk now).1 =
      { conversations := db.conversations.map (fun p =>
          if p.1 == found.2.conversationId then
            (p.1, { p.2 with messageCount :=
              ((db.messages.filter (fun q => ¬ q.1 == mpk)).filter
                (fun q => q.2.conversationId == found.2.conversationId)).length })
          else p),
        messages := db.messages.filter (fun q => ¬ q.1 == mpk),
        nextConvPk := db.nextConvPk,
        nextMsgPk := db.nextMsgPk } := by
  have hc2 : (db.conversations.find? (fun p => p.1 == found.2.conversationId)).map Prod.snd =
      some crow := hconv
  unfold Message.delete
  simp only [hfind]
  norm_num
  simp only [ChatDB.getConv]
  rw [hc2]
  rw [update_message_count_db _ _ _ now found.2.conversationId rfl]
  simp [ChatDB.messagesOf]

theorem step_delete_db (s : ChatState) (mpk : Nat)
    (found : Nat × MessageRow) (crow : ConversationRow)
    (hfind : s.db.messages.find? (fun q => q.1 == mpk) = some found)
    (hconv : s.db.getConv found.2.conversationId = some crow) :
    (step s (ChatOp.deleteMsg mpk)).db =
      { conversations := s.db.conversations.map (fun p =>
          if p.1 == found.2.conversationId then
            (p.1, { p.2 with messageCount :=
              ((s.db.messages.filter (fun q => ¬ q.1 == mpk)).filter
                (fun q => q.2.conversationId == found.2.conversationId)).length })
          else p),
        messages := s.db.messages.filter (fun q => ¬ q.1 == mpk),
        nextConvPk := s.db.nextConvPk,
        nextMsgPk := s.db.nextMsgPk } := by
  simp only [step]
  exact message_delete_db s.db s.cache mpk s.now found crow hfind hconv

/-! ### The denormalized-count invariant (C1) -/

/-- Every conversation row's denormalized count equals the number of
persisted messages that belong to it. -/
def CountsOK (db : ChatDB) : Prop :=
  ∀ p ∈ db.conversations, p.2.messageCount = (db.messagesOf p.1).length

/-- Well-formedness the persistence operations maintain: the count
invariant plus primary-key freshness, key uniqueness and referential
integrity of messages. -/
structure DBWF (db : ChatDB) : Prop where
  counts : CountsOK db
  convPkLt : ∀ p ∈ db.conversations, p.1 < db.nextConvPk
  msgPkLt : ∀ q ∈ db.messages, q.1 < db.nextMsgPk
  msgPkNodup : (db.messages.map Prod.fst).Nodup
  msgConvLt : ∀ q ∈ db.messages, q.2.conversationId < db.nextConvPk
  msgConvEx : ∀ q ∈ db.messages, ∃ p ∈ db.conversations, p.1 = q.2.conversationId

theorem key_unique {β : Type} {l : List (Nat × β)} (h : (l.map Prod.fst).Nodup)
    {q1 q2 : Nat × β} (h1 : q1 ∈ l) (h2 : q2 ∈ l) (hk : q1.1 = q2.1) : q1 = q2 := by
  induction l with
  | nil => cases h1
  | cons p rest ih =>
      rw [List.map_cons, List.nodup_cons] at h
      rcases List.mem_cons.mp h1 with rfl | h1m
      · rcases List.mem_cons.mp h2 with rfl | h2m
        · rfl
        · exact absurd (hk ▸ List.mem_map_of_mem Prod.fst h2m) h.1
      · rcases List.mem_cons.mp h2 with rfl | h2m
        · exact absurd (hk ▸ List.mem_map_of_mem Prod.fst h1m) h.1
        · exact ih h.2 h1m h2m

theorem getConv_some_mem (db : ChatDB) (k : Nat) (crow : ConversationRow)
    (h : db.getConv k = some crow) : ∃ p ∈ db.conversations, p.1 = k := by
  unfold ChatDB.getConv at h
  rcases Option.map_eq_some'.mp h with ⟨p, hfind, _⟩
  exact ⟨p, List.mem_of_find?_eq_some hfind, by simpa using List.find?_some hfind⟩

theorem getConv_isSome_of_mem (db : ChatDB) (k : Nat)
    (hex : ∃ p ∈ db.conversations, p.1 = k) : ∃ crow, db.getConv k = some crow := by
  rcases hex with ⟨p, hp, hpk⟩
  have hs : (db.conversations.find? (fun p => p.1 == k)).isSome = true :=
    List.find?_isSome.mpr ⟨p, hp, by simpa using hpk⟩
  rcases Option.isSome_iff_exists.mp hs with ⟨a, ha⟩
  refine ⟨a.2, ?_⟩
  unfold ChatDB.getConv
  rw [ha]
  rfl

theorem wf_step_createConv (s : ChatState) (uid : Nat) (h : DBWF s.db) :
    DBWF (step s (ChatOp.createConv uid)).db := by
  rw [step_createConv_db]
  refine ⟨?_, ?_, ?_, ?_, ?_, ?_⟩
  · intro p hp
    rcases List.mem_append.mp hp with hp1 | hp2
    · simpa [ChatDB.messagesOf] using h.counts p hp1
    · have hp2' : p = (s.db.nextConvPk,
          { userId := uid, title := "", createdAt := s.now,
            updatedAt := s.now, messageCount := 0 }) := by simpa using hp2
      subst hp2'
      have hnil : s.db.messages.filter
          (fun q => q.2.conversationId == s.db.nextConvPk) = [] := by
        rw [List.filter_eq_nil_iff]
        intro q hq
        simpa using Nat.ne_of_lt (h.msgConvLt q hq)
      simp [ChatDB.messagesOf, hnil]
  · intro p hp
    show p.1 < s.db.nextConvPk + 1
    rcases List.mem_append.mp hp with hp1 | hp2
    · exact Nat.lt_succ_of_lt (h.convPkLt p hp1)
    · rcases List.mem_singleton.mp hp2 with rfl
      exact Nat.lt_succ_self _
  · intro q hq
    exact h.msgPkLt q hq
  · exact h.msgPkNodup
  · intro q hq
    exact Nat.lt_succ_of_lt (h.msgConvLt q hq)
  · intro q hq
    rcases h.msgConvEx q hq with ⟨p, hp, hpk⟩
    exact ⟨p, List.mem_append_left _ hp, hpk⟩

theorem wf_step_append (s : ChatState) (cid : Nat) (content : String) (isUser : Bool)
    (h : DBWF s.db) : DBWF (step s (ChatOp.append cid content isUser)).db := by
  cases hc : s.db.getConv cid with
  | none =>
      have hno : (step s (ChatOp.append cid content isUser)).db = s.db := by
        simp only [step]
        rw [if_neg (by simp [hc])]
      rw [hno]
      exact h
  | some crow =>
      rw [step_append_db s cid content isUser crow hc]
      have hcidlt : cid < s.db.nextConvPk := by
        rcases getConv_some_mem s.db cid crow hc with ⟨p, hp, hpk⟩
        exact hpk ▸ h.convPkLt p hp
      refine ⟨?_, ?_, ?_, ?_, ?_, ?_⟩
      · intro p' hp'
        rcases List.mem_map.mp hp' with ⟨p, hp, hval⟩
        cases hkey : (p.1 == cid) with
        | true =>
            rw [if_pos hkey] at hval
            have hk : p.1 = cid := by simpa using hkey
            subst hval
            simp only [ChatDB.messagesOf]
            rw [hk]
        | false =>
            rw [if_neg (by simp [hkey])] at hval
            subst hval
            have hk : p.1 ≠ cid := by simpa using hkey
            have hone : ((appendedRow cid content isUser s.now).conversationId == p.1) =
                false := by
              simp [appendedRow]
              omega
            simp only [ChatDB.messagesOf, List.filter_append]
            simp only [List.filter_cons, hone, List.filter_nil, List.append_nil]
            simpa [ChatDB.messagesOf] using h.counts p hp
      · intro p' hp'
        rcases List.mem_map.mp hp' with ⟨p, hp, hval⟩
        have : p'.1 = p.1 := by
          cases hkey : (p.1 == cid) with
          | true => rw [if_pos hkey] at hval; subst hval; rfl
          | false => rw [if_neg (by simp [hkey])] at hval; subst hval; rfl
        rw [this]
        exact h.convPkLt p hp
      · intro q hq
        show q.1 < s.db.nextMsgPk + 1
        rcases List.mem_append.mp hq with hq1 | hq2
        · exact Nat.lt_succ_of_lt (h.msgPkLt q hq1)
        · rcases List.mem_singleton.mp hq2 with rfl
          exact Nat.lt_succ_self _
      · simp only [List.map_append]
        rw [List.nodup_append]
        refine ⟨h.msgPkNodup, by simp, ?_⟩
        intro a ha hb
        have hlt : a < s.db.nextMsgPk := by
          rcases List.mem_map.mp ha with ⟨q, hq, rfl⟩
          exact h.msgPkLt q hq
        have : a = s.db.nextMsgPk := by simpa using hb
        omega
      · intro q hq
        rcases List.mem_append.mp hq with hq1 | hq2
        · exact h.msgConvLt q hq1
        · rcases List.mem_singleton.mp hq2 with rfl
          simpa [appendedRow] using hcidlt
      · intro q hq
        have hmk : ∀ p0 ∈ s.db.conversations, ∃ p' ∈ s.db.conversations.map
            (fun p => if p.1 == cid then
              (p.1, { p.2 with messageCount :=
                ((s.db.messages ++
                  [(s.db.nextMsgPk, appendedRow cid content isUser s.now)]).filter
                  (fun q => q.2.conversationId == cid)).length })
              else p), p'.1 = p0.1 := by
          intro p0 hp0
          refine ⟨_, List.mem_map_of_mem _ hp0, ?_⟩
          cases hkey : (p0.1 == cid) <;> simp [hkey]
        rcases List.mem_append.mp hq with hq1 | hq2
        · rcases h.msgConvEx q hq1 with ⟨p0, hp0, hpk⟩
          rcases hmk p0 hp0 with ⟨p', hp', hpk'⟩
          exact ⟨p', hp', hpk' ▸ hpk⟩
        · rcases List.mem_singleton.mp hq2 with rfl
          rcases getConv_some_mem s.db cid crow hc with ⟨p0, hp0, hpk⟩
          rcases hmk p0 hp0 with ⟨p', hp', hpk'⟩
          refine ⟨p', hp', ?_⟩
          simp [appendedRow, hpk' ▸ hpk]

theorem wf_step_delete (s : ChatState) (mpk : Nat) (h : DBWF s.db) :
    DBWF (step s (ChatOp.deleteMsg mpk)).db := by
  cases hfind : s.db.messages.find? (fun q => q.1 == mpk) with
  | none =>
      have hno : (step s (ChatOp.deleteMsg mpk)).db = s.db := by
        simp only [step, Message.delete, hfind]
      rw [hno]
      exact h
  | some found =>
      have hfmem : found ∈ s.db.messages := List.mem_of_find?_eq_some hfind
      have hfkey : found.1 = mpk := by simpa using List.find?_some hfind
      obtain ⟨crow, hconv⟩ : ∃ crow, s.db.getConv found.2.conversationId = some crow :=
        getConv_isSome_of_mem s.db found.2.conversationId (h.msgConvEx found hfmem)
      rw [step_delete_db s mpk found crow hfind hconv]
      have hmk : ∀ p0 ∈ s.db.conversations, ∃ p' ∈ s.db.conversations.map
          (fun p => if p.1 == found.2.conversationId then
            (p.1, { p.2 with messageCount :=
              ((s.db.messages.filter (fun q => ¬ q.1 == mpk)).filter
                (fun q => q.2.conversationId == found.2.conversationId)).length })
            else p), p'.1 = p0.1 := by
        intro p0 hp0
        refine ⟨_, List.mem_map_of_mem _ hp0, ?_⟩
        cases hkey : (p0.1 == found.2.conversationId) <;> simp [hkey]
      refine ⟨?_, ?_, ?_, ?_, ?_, ?_⟩
      · intro p' hp'
        rcases List.mem_map.mp hp' with ⟨p, hp, hval⟩
        cases hkey : (p.1 == found.2.conversationId) with
        | true =>
            rw [if_pos hkey] at hval
            have hk : p.1 = found.2.conversationId := by simpa using hkey
            subst hval
            simp only [ChatDB.messagesOf]
            rw [hk]
        | false =>
            rw [if_neg (by simp [hkey])] at hval
            subst hval
            have hk : p.1 ≠ found.2.conversationId := by simpa using hkey
            simp only [ChatDB.messagesOf]
            rw [List.filter_filter]
            have hcong : s.db.messages.filter
                (fun q => (q.2.conversationId == p.1) && ¬ (q.1 == mpk)) =
                s.db.messages.filter (fun q => q.2.conversationId == p.1) := by
              apply List.filter_congr
              intro q hq
              cases hcid : (q.2.conversationId == p.1) with
              | true =>
                  have hne : (q.1 == mpk) = false := by
                    cases hqpk : (q.1 == mpk) with
                    | true =>
                        have hq1 : q.1 = found.1 := by
                          rw [hfkey]
                          simpa using hqpk
                        have := key_unique h.msgPkNodup hq hfmem hq1
                        subst this
                        have : q.2.conversationId = p.1 := by simpa using hcid
                        exact absurd this.symm (by simpa using hk)
                    | false => rfl
                  simp [hne]
              | false => simp
            rw [hcong]
            simpa [ChatDB.messagesOf] using h.counts p hp
      · intro p' hp'
        show p'.1 < s.db.nextConvPk
        rcases List.mem_map.mp hp' with ⟨p, hp, hval⟩
        have hk : p'.1 = p.1 := by
          cases hkey : (p.1 == found.2.conversationId) with
          | true => rw [if_pos hkey] at hval; subst hval; rfl
          | false => rw [if_neg (by simp [hkey])] at hval; subst hval; rfl
        rw [hk]
        exact h.convPkLt p hp
      · intro q hq
        exact h.msgPkLt q (List.mem_of_mem_filter hq)
      · exact ((List.filter_sublist _).map Prod.fst).nodup h.msgPkNodup
      · intro q hq
        exact h.msgConvLt q (List.mem_of_mem_filter hq)
      · intro q hq
        rcases h.msgConvEx q (List.mem_of_mem_filter hq) with ⟨p0, hp0, hpk⟩
        rcases hmk p0 hp0 with ⟨p', hp', hpk'⟩
        exact ⟨p', hp', hpk' ▸ hpk⟩

theorem wf_step (s : ChatState) (op : ChatOp) (h : DBWF s.db) : DBWF (step s op).db := by
  cases op with
  | createConv uid => exact wf_step_createConv s uid h
  | append cid content isUser => exact wf_step_append s cid content isUser h
  | deleteMsg mpk => exact wf_step_delete s mpk h

theorem wf_run (s : ChatState) (h : DBWF s.db) (ops : List ChatOp) : DBWF (run s ops).db := by
  induction ops generalizing s with
  | nil => exact h
  | cons op rest ih => exact ih (step s op) (wf_step s op h)

theorem dbwf_init : DBWF initState.db := by
  refine ⟨?_, ?_, ?_, ?_, ?_, ?_⟩ <;> simp [CountsOK, initState, emptyDB]

/-- C1: after any sequence of persistence operations (conversation
creation, message appends, message deletes) starting from the empty
database, every conversation's denormalized `message_count` equals the
number of persisted messages belonging to it — each append and delete
recomputes the count by a full recount. -/
theorem message_count_equals_persisted_count (ops : List ChatOp) :
    ∀ p ∈ (run initState ops).db.conversations,
      p.2.messageCount = ((run initState ops).db.messagesOf p.1).length :=
  (wf_run initState dbwf_init ops).counts

def c1ops : List ChatOp :=
  [ChatOp.createConv 7, ChatOp.append 1 "a" true, ChatOp.append 1 "b" false,
   ChatOp.deleteMsg 1]

def c1row : ConversationRow :=
  { userId := 7, title := "", createdAt := 0, updatedAt := 0, messageCount := 1 }

theorem message_count_equals_persisted_count_witness :
    (1, c1row) ∈ (run initState c1ops).db.conversations ∧
    c1row.messageCount = ((run initState c1ops).db.messagesOf 1).length :=
  ⟨by decide, message_count_equals_persisted_count c1ops (1, c1row) (by decide)⟩

end Hackversity
